import Mathlib

/-!
Verification development for a small product CRUD service.

The embedding follows the source layer by layer:

* `app/models/products.py` — the `Product` entity with its duck-typed
  attribute dictionary (`setattr` / `hasattr` / `getattr`), the merge loop
  `Product.update`, the constructor path `Product.create`, the
  featured-flag rule `Product.on_update`, and the referential lookups
  `Brand.get` and `Category.get_all`.
* `app/schema/products.py` — the create/update validation schemas:
  per-field constraints, the RFC-1123 pre-parsing step for date fields,
  and the cross-field minimal-expiration rule, with errors collected per
  field in declaration order (pydantic aggregation semantics).
* `app/endpoints/products.py` — `build_product_args`, which turns a
  validated payload into the attribute dictionary handed to the entity
  (only explicitly-set fields are emitted, and brand / category ids are
  replaced by resolved records).

Python dictionaries are embedded as `List (String × _)` association lists
(keys unique in every dictionary the program builds), datetimes as
rational numbers of seconds, and floats as rationals.  Fallible Python
code is embedded with `Except` / an explicit error component; a raised
`KeyError k` is `PyErr.keyError k` and a raised comparison `TypeError`
is `PyErr.typeError`.
-/

/-- A row of the `brands` table (`app/models/products.py`, class `Brand`). -/
structure BrandRec where
  id : ℤ
  name : String
  country_code : String
deriving DecidableEq

/-- A row of the `categories` table (`app/models/products.py`, class `Category`). -/
structure CategoryRec where
  id : ℤ
  name : String
deriving DecidableEq

/-- Python runtime values that flow through the merge dictionaries. -/
inductive Value where
  | vNone
  | vBool (b : Bool)
  | vInt (n : ℤ)
  | vFloat (q : ℚ)
  | vStr (s : String)
  | vDate (t : ℚ)
  | vBrand (b : BrandRec)
  | vCategories (cs : List CategoryRec)
  | vIntList (l : List ℤ)
deriving DecidableEq

/-- `FEATURED_THRESHOLD = 8` from `app/models/products.py`. -/
def FEATURED_THRESHOLD : ℤ := 8

/-- Python exceptions raised by the merge code. -/
inductive PyErr where
  | keyError (k : String)
  | typeError
deriving DecidableEq

/-- The `Product` ORM entity: one `Value` per mapped attribute.  Before a
flush SQLAlchemy reports unset attributes as `None`, embedded as `vNone`. -/
structure Product where
  id : Value
  name : Value
  rating : Value
  featured : Value
  created_at : Value
  expiration_date : Value
  brand_id : Value
  brand : Value
  categories : Value
  items_in_stock : Value
  receipt_date : Value
deriving DecidableEq

/-- Names of the attributes `hasattr(self, key)` recognises on `Product`
(the mapped columns plus the `brand` and `categories` relationship
attributes). -/
inductive Attr where
  | id
  | name
  | rating
  | featured
  | created_at
  | expiration_date
  | brand_id
  | brand
  | categories
  | items_in_stock
  | receipt_date
deriving DecidableEq

/-- The attribute table of a `Product` instance. -/
def attrPairs : List (String × Attr) :=
  [("id", .id), ("name", .name), ("rating", .rating), ("featured", .featured),
   ("created_at", .created_at), ("expiration_date", .expiration_date),
   ("brand_id", .brand_id), ("brand", .brand), ("categories", .categories),
   ("items_in_stock", .items_in_stock), ("receipt_date", .receipt_date)]

/-- The attribute named by a string, if `Product` has one of that name. -/
def attrOfString (k : String) : Option Attr :=
  (attrPairs.find? (fun kv => kv.1 = k)).map (fun kv => kv.2)

/-- The string naming an attribute (left inverse of `attrOfString`). -/
def attrName : Attr → String
  | .id => "id"
  | .name => "name"
  | .rating => "rating"
  | .featured => "featured"
  | .created_at => "created_at"
  | .expiration_date => "expiration_date"
  | .brand_id => "brand_id"
  | .brand => "brand"
  | .categories => "categories"
  | .items_in_stock => "items_in_stock"
  | .receipt_date => "receipt_date"

/-- Python `hasattr(self, key)` on a `Product` instance. -/
def hasattr (k : String) : Bool :=
  (attrOfString k).isSome

/-- Write one attribute of the entity. -/
def setAttrA (p : Product) : Attr → Value → Product
  | .id, v => { p with id := v }
  | .name, v => { p with name := v }
  | .rating, v => { p with rating := v }
  | .featured, v => { p with featured := v }
  | .created_at, v => { p with created_at := v }
  | .expiration_date, v => { p with expiration_date := v }
  | .brand_id, v => { p with brand_id := v }
  | .brand, v => { p with brand := v }
  | .categories, v => { p with categories := v }
  | .items_in_stock, v => { p with items_in_stock := v }
  | .receipt_date, v => { p with receipt_date := v }

/-- Read one attribute of the entity. -/
def getAttrA (p : Product) : Attr → Value
  | .id => p.id
  | .name => p.name
  | .rating => p.rating
  | .featured => p.featured
  | .created_at => p.created_at
  | .expiration_date => p.expiration_date
  | .brand_id => p.brand_id
  | .brand => p.brand
  | .categories => p.categories
  | .items_in_stock => p.items_in_stock
  | .receipt_date => p.receipt_date

/-- Python `setattr(self, key, value)` for the keys the merge loop passes
(the loop guards with `hasattr`, so an unrecognised key never reaches the
real `setattr`; the fallthrough is the identity). -/
def setattr (p : Product) (k : String) (v : Value) : Product :=
  match attrOfString k with
  | some a => setAttrA p a v
  | none => p

/-- Python `getattr(self, key)` (unrecognised keys never arise where this
is used; the fallthrough returns `vNone`). -/
def getattr (p : Product) (k : String) : Value :=
  match attrOfString k with
  | some a => getAttrA p a
  | none => .vNone

/-- Python `data[k]`-style lookup in an (insertion-ordered, unique-key)
dictionary, returning `none` where Python would raise `KeyError`. -/
def lookupVal (data : List (String × Value)) (k : String) : Option Value :=
  (data.find? (fun kv => kv.1 = k)).map (fun kv => kv.2)

/-- The Python comparison `data["rating"] > FEATURED_THRESHOLD`: defined
for numbers (`bool` is an `int` in Python), a `TypeError` otherwise. -/
def ratingGtThreshold : Value → Except PyErr Bool
  | .vFloat q => .ok (decide ((FEATURED_THRESHOLD : ℚ) < q))
  | .vInt n => .ok (decide (FEATURED_THRESHOLD < n))
  | .vBool b => .ok (decide (FEATURED_THRESHOLD < (if b then (1 : ℤ) else 0)))
  | _ => .error .typeError

/-- `Product.on_update` from `app/models/products.py`:

`if data["featured"] is None and data["rating"] > FEATURED_THRESHOLD:
self.featured = True` — the subscripts raise `KeyError` for an absent
key, and `and` short-circuits, so `data["rating"]` is only evaluated
when `data["featured"]` is `None`. -/
def Product.on_update (p : Product) (data : List (String × Value)) : Except PyErr Product :=
  match lookupVal data "featured" with
  | none => .error (.keyError "featured")
  | some fv =>
    if fv = .vNone then
      match lookupVal data "rating" with
      | none => .error (.keyError "rating")
      | some rv =>
        match ratingGtThreshold rv with
        | .error e => .error e
        | .ok true => .ok { p with featured := .vBool true }
        | .ok false => .ok p
    else .ok p

/-- One iteration of the merge loop in `Product.update`: skip a `None`
`featured`, skip unrecognised keys, otherwise `setattr`. -/
def applyStep (p : Product) (k : String) (v : Value) : Product :=
  if k = "featured" ∧ v = .vNone then p
  else if hasattr k then setattr p k v
  else p

/-- The whole `for key, value in data.items():` merge loop. -/
def applyItems (p : Product) : List (String × Value) → Product
  | [] => p
  | (k, v) :: rest => applyItems (applyStep p k v) rest

/-- `Product.update` from `app/models/products.py`: run the merge loop,
then `self.on_update(data)`.  The first component is the state of the
(mutated-in-place) entity afterwards — also when `on_update` raises, in
which case the exception is the second component. -/
def Product.update (p : Product) (data : List (String × Value)) : Product × Option PyErr :=
  let p1 := applyItems p data
  match p1.on_update data with
  | .ok p2 => (p2, none)
  | .error e => (p1, some e)

/-- The keyword-argument constructor `Product(**data)`: every given key is
written (no `featured`-`None` skip here). -/
def ctorItems (p : Product) : List (String × Value) → Product
  | [] => p
  | (k, v) :: rest => ctorItems (setattr p k v) rest

/-- A freshly constructed entity before any kwargs: all attributes unset. -/
def blankProduct : Product :=
  ⟨.vNone, .vNone, .vNone, .vNone, .vNone, .vNone, .vNone, .vNone, .vNone, .vNone, .vNone⟩

/-- `Product.create` from `app/models/products.py`: `Product(**data)`
followed by `product.on_update(data)`. -/
def Product.create (data : List (String × Value)) : Product × Option PyErr :=
  let product := ctorItems blankProduct data
  match product.on_update data with
  | .ok p2 => (p2, none)
  | .error e => (product, some e)

/-- The `NotFound` exception (`app/models/exceptions.py`): carries the
list of missing-resource descriptions. -/
structure NotFound where
  resources : List String
deriving DecidableEq

/-- `Brand.get` from `app/models/products.py`: first row with the given
primary key, else `NotFound(["Brand[<id>]"])`. -/
def Brand.get (db : List BrandRec) (brand_id : ℤ) : Except NotFound BrandRec :=
  match db.find? (fun b => b.id = brand_id) with
  | none => .error ⟨["Brand[" ++ toString brand_id ++ "]"]⟩
  | some b => .ok b

/-- `Category.get_all` from `app/models/products.py`: select the rows whose
id is in `ids`; if fewer rows than ids come back, raise `NotFound` with
one `"Category[<id>]"` entry per id missing from the result set. -/
def Category.get_all (db : List CategoryRec) (ids : List ℤ) : Except NotFound (List CategoryRec) :=
  let categories := db.filter (fun c => c.id ∈ ids)
  let db_ids := categories.map (fun c => c.id)
  if categories.length ≠ ids.length then
    .error ⟨(ids.filter (fun i => ¬ i ∈ db_ids)).map (fun i => "Category[" ++ toString i ++ "]")⟩
  else
    .ok categories

/-- JSON-level values arriving in a request body, plus `jDate` for the
Python `datetime` objects that the pre-validator substitutes for
successfully parsed date strings.  Datetimes are seconds since the epoch
as rationals. -/
inductive JVal where
  | jNull
  | jBool (b : Bool)
  | jNum (q : ℚ)
  | jStr (s : String)
  | jList (l : List JVal)
  | jDate (t : ℚ)

/-- One aggregated validation error: the field it is attributed to
(`loc[0]` of the pydantic error) and its message. -/
structure FieldError where
  loc : String
  msg : String
deriving DecidableEq

/-- `MINIMAL_EXPIRATION = timedelta(days=30) - timedelta(seconds=5)` from
`app/schema/products.py`, in seconds. -/
def MINIMAL_EXPIRATION : ℚ := 30 * 86400 - 5

/-- Lookup of a key in the JSON object of the request body. -/
def lookupKey (payload : List (String × JVal)) (k : String) : Option JVal :=
  (payload.find? (fun kv => kv.1 = k)).map (fun kv => kv.2)

/-- Validator for `Name = constr(max_length=50)` (numeric-to-string
coercion is not modelled; the payloads of interest carry strings). -/
def parseName : JVal → Except String String
  | .jStr s =>
    if s.length ≤ 50 then .ok s
    else .error "ensure this value has at most 50 characters"
  | .jNull => .error "none is not an allowed value"
  | _ => .error "str type expected"

/-- Validator for `Rating = confloat(ge=0, le=10)`. -/
def parseRating : JVal → Except String ℚ
  | .jNum q =>
    if q < 0 then .error "ensure this value is greater than or equal to 0"
    else if 10 < q then .error "ensure this value is less than or equal to 10"
    else .ok q
  | .jNull => .error "none is not an allowed value"
  | _ => .error "value is not a valid float"

/-- Validator for a `bool` field. -/
def parseBool : JVal → Except String Bool
  | .jBool b => .ok b
  | _ => .error "value could not be parsed to a boolean"

/-- Validator for an `int` field (`CategoryID` / `BrandID`). -/
def parseInt : JVal → Except String ℤ
  | .jNum q => if q.den = 1 then .ok q.num else .error "value is not a valid integer"
  | _ => .error "value is not a valid integer"

/-- Validator for `PositiveInt` (`items_in_stock`). -/
def parsePositiveInt (v : JVal) : Except String ℤ :=
  match parseInt v with
  | .error m => .error m
  | .ok n => if n ≤ 0 then .error "ensure this value is greater than 0" else .ok n

/-- Elementwise `int` validation of a JSON array. -/
def parseIntList : List JVal → Except String (List ℤ)
  | [] => .ok []
  | v :: rest =>
    match parseInt v with
    | .error m => .error m
    | .ok n =>
      match parseIntList rest with
      | .error m => .error m
      | .ok ns => .ok (n :: ns)

/-- Validator for `conset(CategoryID, min_items=1, max_items=5)`: the list
is coerced to a set (duplicates collapse), then the size bounds apply. -/
def parseCategories : JVal → Except String (List ℤ)
  | .jList l =>
    (match parseIntList l with
      | .error m => .error m
      | .ok ids =>
        let s := ids.dedup
        if s.length < 1 then .error "ensure this value has at least 1 items"
        else if 5 < s.length then .error "ensure this value has at most 5 items"
        else .ok s)
  | .jNull => .error "none is not an allowed value"
  | _ => .error "value is not a valid set"

/-- Errors contributed by one required field: missing, invalid, or none. -/
def requiredField {α : Type} (k : String) (payload : List (String × JVal))
    (f : JVal → Except String α) : List FieldError :=
  match lookupKey payload k with
  | none => [⟨k, "field required"⟩]
  | some v =>
    match f v with
    | .error m => [⟨k, m⟩]
    | .ok _ => []

/-- Whether a JSON value is the null literal. -/
def JVal.isNull : JVal → Bool
  | .jNull => true
  | _ => false

/-- Errors contributed by one optional field: absent or explicitly null
fields are fine, otherwise the field validator applies. -/
def optionalField {α : Type} (k : String) (payload : List (String × JVal))
    (f : JVal → Except String α) : List FieldError :=
  match lookupKey payload k with
  | none => []
  | some v =>
    if v.isNull then []
    else
      match f v with
      | .error m => [⟨k, m⟩]
      | .ok _ => []

/-- `ProductCreateSchema.parse_rfc_1123_datetime` (pre-validator, both
date fields): a string is parsed as RFC 1123 — on failure it is returned
unchanged, on success the parsed datetime replaces it; non-strings pass
through untouched.  `rfcParse` stands for
`email.utils.parsedate_to_datetime`, returning `none` where the library
reports failure. -/
def parse_rfc_1123_datetime (rfcParse : String → Option ℚ) : JVal → JVal
  | .jStr s =>
    match rfcParse s with
    | none => .jStr s
    | some t => .jDate t
  | v => v

/-- Modelled from the spec: the `Optional[datetime]` type check applied
after the pre-validator is pydantic library code, not part of this
repository.  Per the spec, a native timestamp or a parsed datetime is
accepted and a string that failed RFC-1123 parsing "is passed through
unchanged to the type check, which then fails it as a format error". -/
def datetimeTypeCheck : JVal → Except String (Option ℚ)
  | .jNull => .ok none
  | .jDate t => .ok (some t)
  | .jNum q => .ok (some q)
  | _ => .error "invalid datetime format"

/-- `ProductCreateSchema.validate_expiration_date`: when a value is
present, `expiration_date - today < MINIMAL_EXPIRATION` is an error
(`today` is the validation-time clock). -/
def validate_expiration_date (now : ℚ) (expiration_date : Option ℚ) : Except String (Option ℚ) :=
  match expiration_date with
  | none => .ok none
  | some t =>
    if t - now < MINIMAL_EXPIRATION then
      .error "cant set expiration in less then MINIMAL_EXPIRATION days"
    else .ok (some t)

/-- Errors contributed by the `receipt_date` field: pre-parse, then the
datetime type check; absent fields contribute nothing. -/
def receiptDateErrors (rfcParse : String → Option ℚ)
    (payload : List (String × JVal)) : List FieldError :=
  match lookupKey payload "receipt_date" with
  | none => []
  | some v =>
    match datetimeTypeCheck (parse_rfc_1123_datetime rfcParse v) with
    | .error m => [⟨"receipt_date", m⟩]
    | .ok _ => []

/-- Errors contributed by the `expiration_date` field: pre-parse, the
datetime type check, then `validate_expiration_date`; absent fields
contribute nothing. -/
def expirationDateErrors (now : ℚ) (rfcParse : String → Option ℚ)
    (payload : List (String × JVal)) : List FieldError :=
  match lookupKey payload "expiration_date" with
  | none => []
  | some v =>
    match datetimeTypeCheck (parse_rfc_1123_datetime rfcParse v) with
    | .error m => [⟨"expiration_date", m⟩]
    | .ok d =>
      match validate_expiration_date now d with
      | .error m => [⟨"expiration_date", m⟩]
      | .ok _ => []

/-- All validation errors of `ProductCreateSchema`, aggregated per field
in declaration order (pydantic checks every field and never stops at the
first failure). -/
def createErrors (now : ℚ) (rfcParse : String → Option ℚ)
    (payload : List (String × JVal)) : List FieldError :=
  requiredField "name" payload parseName ++
  requiredField "rating" payload parseRating ++
  optionalField "featured" payload parseBool ++
  receiptDateErrors rfcParse payload ++
  expirationDateErrors now rfcParse payload ++
  requiredField "brand" payload parseInt ++
  requiredField "categories" payload parseCategories ++
  requiredField "items_in_stock" payload parsePositiveInt

/-- All validation errors of `ProductUpdateSchema`: the same per-field
rules (validators included, by inheritance) with every field optional. -/
def updateErrors (now : ℚ) (rfcParse : String → Option ℚ)
    (payload : List (String × JVal)) : List FieldError :=
  optionalField "name" payload parseName ++
  optionalField "rating" payload parseRating ++
  optionalField "featured" payload parseBool ++
  receiptDateErrors rfcParse payload ++
  expirationDateErrors now rfcParse payload ++
  optionalField "brand" payload parseInt ++
  optionalField "categories" payload parseCategories ++
  optionalField "items_in_stock" payload parsePositiveInt

/-- A validated `ProductUpdateSchema` instance together with its
`__fields_set__`: the outer `Option` is "was the field supplied?", the
inner one is "was it null?".  `dict(exclude_unset=True)` emits exactly
the fields whose outer option is `some`. -/
structure UpdateParsed where
  name : Option (Option String)
  rating : Option (Option ℚ)
  featured : Option (Option Bool)
  receipt_date : Option (Option ℚ)
  expiration_date : Option (Option ℚ)
  brand : Option (Option ℤ)
  categories : Option (Option (List ℤ))
  items_in_stock : Option (Option ℤ)
deriving DecidableEq

/-- The validated value of one schema field: absent from the payload,
supplied as null, or supplied and validated (only consulted after
validation reported no errors, so the failure branch is arbitrary). -/
def fieldValue {α : Type} (k : String) (payload : List (String × JVal))
    (f : JVal → Except String α) : Option (Option α) :=
  match lookupKey payload k with
  | none => none
  | some .jNull => some none
  | some v =>
    match f v with
    | .ok a => some (some a)
    | .error _ => some none

/-- The validated value of one date field (pre-parser plus type check). -/
def dateFieldValue (k : String) (rfcParse : String → Option ℚ)
    (payload : List (String × JVal)) : Option (Option ℚ) :=
  match lookupKey payload k with
  | none => none
  | some v =>
    match datetimeTypeCheck (parse_rfc_1123_datetime rfcParse v) with
    | .ok d => some d
    | .error _ => some none

/-- Construction of `ProductUpdateSchema(**payload)`: only the declared
fields are read from the request body; unknown keys are ignored by
pydantic. -/
def parseUpdate (rfcParse : String → Option ℚ)
    (payload : List (String × JVal)) : UpdateParsed where
  name := fieldValue "name" payload parseName
  rating := fieldValue "rating" payload parseRating
  featured := fieldValue "featured" payload parseBool
  receipt_date := dateFieldValue "receipt_date" rfcParse payload
  expiration_date := dateFieldValue "expiration_date" rfcParse payload
  brand := fieldValue "brand" payload parseInt
  categories := fieldValue "categories" payload parseCategories
  items_in_stock := fieldValue "items_in_stock" payload parsePositiveInt

/-- One entry of `data.dict(exclude_unset=True)`: nothing when the field
was never set, otherwise the key with the (possibly null) value. -/
def optEntry {α : Type} (k : String) (o : Option (Option α)) (enc : α → Value) :
    List (String × Value) :=
  match o with
  | none => []
  | some ov =>
    match ov with
    | none => [(k, .vNone)]
    | some a => [(k, enc a)]

/-- `data.dict(exclude_unset=True)` for the update schema, in field
declaration order. -/
def updateDict (u : UpdateParsed) : List (String × Value) :=
  optEntry "name" u.name Value.vStr ++
  optEntry "rating" u.rating Value.vFloat ++
  optEntry "featured" u.featured Value.vBool ++
  optEntry "receipt_date" u.receipt_date Value.vDate ++
  optEntry "expiration_date" u.expiration_date Value.vDate ++
  optEntry "brand" u.brand Value.vInt ++
  optEntry "categories" u.categories Value.vIntList ++
  optEntry "items_in_stock" u.items_in_stock Value.vInt

/-- Python dictionary assignment `d[k] = v`: replace the value of an
existing key, else append the new entry. -/
def setKey (d : List (String × Value)) (k : String) (v : Value) : List (String × Value) :=
  if d.any (fun kv => kv.1 = k) then
    d.map (fun kv => if kv.1 = k then (kv.1, v) else kv)
  else
    d ++ [(k, v)]

/-- `build_product_args` from `app/endpoints/products.py`: dump the
explicitly-set fields, then — when a brand id / category ids were
supplied non-null — resolve them and overwrite the dictionary entries
with the resolved records.  Either lookup can raise `NotFound`. -/
def build_product_args (brandDb : List BrandRec) (catDb : List CategoryRec)
    (data : UpdateParsed) : Except NotFound (List (String × Value)) :=
  let create_args := updateDict data
  let step1 : Except NotFound (List (String × Value)) :=
    match data.brand with
    | some (some bid) =>
      (match Brand.get brandDb bid with
        | .error e => .error e
        | .ok br => .ok (setKey create_args "brand" (.vBrand br)))
    | _ => .ok create_args
  match step1 with
  | .error e => .error e
  | .ok args1 =>
    match data.categories with
    | some (some ids) =>
      (match Category.get_all catDb ids with
        | .error e => .error e
        | .ok cs => .ok (setKey args1 "categories" (.vCategories cs)))
    | _ => .ok args1

/-- The field names the update schema declares (every key that
`dict(exclude_unset=True)` can emit). -/
def updateFieldNames : List String :=
  ["name", "rating", "featured", "receipt_date", "expiration_date",
   "brand", "categories", "items_in_stock"]

/-- A persisted product as the repository tests build it (brand and one
category attached, rating 5, not featured). -/
def sampleProduct : Product where
  id := .vInt 1
  name := .vStr "test"
  rating := .vFloat 5
  featured := .vBool false
  created_at := .vDate 0
  expiration_date := .vNone
  brand_id := .vInt 1
  brand := .vBrand ⟨1, "test", "RU"⟩
  categories := .vCategories [⟨1, "test"⟩]
  items_in_stock := .vInt 1
  receipt_date := .vNone

/-- The same product after it has become featured. -/
def sampleFeatured : Product :=
  { sampleProduct with featured := .vBool true }

/-- A create-request body with every required field present and the raw
values given (dates and `featured` omitted), as the aggregate validation
claims exercise it. -/
def createPayload (nm : String) (r : ℚ) (b : ℤ) (cats : List ℤ) (st : ℤ) :
    List (String × JVal) :=
  [("name", .jStr nm), ("rating", .jNum r), ("brand", .jNum (b : ℚ)),
   ("categories", .jList (cats.map (fun (i : ℤ) => JVal.jNum (i : ℚ)))),
   ("items_in_stock", .jNum (st : ℚ))]

/-! ## Attribute bookkeeping lemmas -/

theorem getAttrA_setAttrA_same (p : Product) (a : Attr) (v : Value) :
    getAttrA (setAttrA p a v) a = v := by
  cases a <;> rfl

theorem getAttrA_setAttrA_ne (p : Product) (a b : Attr) (v : Value) (h : a ≠ b) :
    getAttrA (setAttrA p a v) b = getAttrA p b := by
  cases a <;> cases b <;> first | exact absurd rfl h | rfl

theorem eq_attrName_of_attrOfString {k : String} {a : Attr}
    (h : attrOfString k = some a) : k = attrName a := by
  unfold attrOfString at h
  obtain ⟨kv, hfind, hsnd⟩ := Option.map_eq_some'.mp h
  have hmem : kv ∈ attrPairs := List.mem_of_find?_eq_some hfind
  have hfst : kv.1 = k := by simpa using List.find?_some hfind
  have htab : ∀ kv ∈ attrPairs, attrName kv.2 = kv.1 := by decide
  rw [← hfst, ← hsnd, htab kv hmem]

theorem getattr_def (p : Product) (k : String) (a : Attr)
    (hA : attrOfString k = some a) : getattr p k = getAttrA p a := by
  unfold getattr
  rw [hA]

theorem getattr_def_none (p : Product) (k : String)
    (hA : attrOfString k = none) : getattr p k = .vNone := by
  unfold getattr
  rw [hA]

theorem setattr_def (p : Product) (k : String) (v : Value) (a : Attr)
    (hA : attrOfString k = some a) : setattr p k v = setAttrA p a v := by
  unfold setattr
  rw [hA]

theorem getattr_featured (p : Product) : getattr p "featured" = p.featured := rfl

theorem getattr_applyStep (p : Product) (k k' : String) (v : Value) :
    getattr (applyStep p k v) k' =
      if k' = k ∧ hasattr k = true ∧ ¬(k = "featured" ∧ v = Value.vNone) then v
      else getattr p k' := by
  unfold applyStep
  by_cases hskip : k = "featured" ∧ v = Value.vNone
  · simp [hskip]
  · rw [if_neg hskip]
    by_cases hH : hasattr k
    · rw [if_pos hH]
      cases hA : attrOfString k with
      | none => simp [hasattr, hA] at hH
      | some a =>
        rw [setattr_def p k v a hA]
        by_cases hk' : k' = k
        · subst hk'
          rw [getattr_def (setAttrA p a v) _ a hA, getAttrA_setAttrA_same]
          simp [hH, hskip]
        · rw [if_neg (by simp [hk'])]
          cases hA' : attrOfString k' with
          | none => rw [getattr_def_none _ _ hA', getattr_def_none _ _ hA']
          | some b =>
            rw [getattr_def (setAttrA p a v) k' b hA', getattr_def p k' b hA']
            have hab : a ≠ b := by
              intro he
              exact hk' (by
                rw [eq_attrName_of_attrOfString hA', ← he,
                  ← eq_attrName_of_attrOfString hA])
            exact getAttrA_setAttrA_ne p a b v hab
    · rw [if_neg hH]
      rw [if_neg (by intro hc; exact hH hc.2.1)]

theorem getattr_id (p : Product) : getattr p "id" = p.id := rfl

theorem getattr_created_at (p : Product) : getattr p "created_at" = p.created_at := rfl

theorem hasattr_featured : hasattr "featured" = true := rfl

theorem getattr_applyItems_not_mem (data : List (String × Value)) (k : String)
    (h : ¬ k ∈ data.map Prod.fst) :
    ∀ p : Product, getattr (applyItems p data) k = getattr p k := by
  induction data with
  | nil => intro p; rfl
  | cons kv rest ih =>
    intro p
    obtain ⟨k0, v0⟩ := kv
    simp only [List.map_cons, List.mem_cons] at h
    push_neg at h
    rw [applyItems, ih h.2 (applyStep p k0 v0), getattr_applyStep,
      if_neg (by intro hc; exact h.1 hc.1)]

theorem getattr_applyItems_mem (k : String) (v : Value)
    (hattr : hasattr k = true) (hns : ¬(k = "featured" ∧ v = Value.vNone)) :
    ∀ (data : List (String × Value)) (p : Product),
      (data.map Prod.fst).Nodup → (k, v) ∈ data → getattr (applyItems p data) k = v := by
  intro data
  induction data with
  | nil => intro p _ hmem; cases hmem
  | cons kv rest ih =>
    intro p hnd hmem
    obtain ⟨k0, v0⟩ := kv
    simp only [List.map_cons, List.nodup_cons] at hnd
    rw [applyItems]
    rcases List.mem_cons.mp hmem with heq | hmem'
    · rw [Prod.mk.injEq] at heq
      obtain ⟨rfl, rfl⟩ := heq
      rw [getattr_applyItems_not_mem rest k hnd.1 (applyStep p k v),
        getattr_applyStep, if_pos ⟨rfl, hattr, hns⟩]
    · exact ih (applyStep p k0 v0) hnd.2 hmem'

theorem applyStep_featured (p : Product) (k : String) (v : Value) :
    (applyStep p k v).featured =
      if k = "featured" ∧ v ≠ Value.vNone then v else p.featured := by
  have h := getattr_applyStep p k "featured" v
  rw [getattr_featured, getattr_featured] at h
  by_cases hk : k = "featured"
  · subst hk
    by_cases hv : v = Value.vNone
    · subst hv
      rw [h, if_neg (by simp), if_neg (by simp)]
    · rw [h, if_pos ⟨rfl, hasattr_featured, by simp [hv]⟩, if_pos ⟨rfl, hv⟩]
  · rw [h, if_neg (by intro hc; exact hk hc.1.symm),
      if_neg (by intro hc; exact hk hc.1)]

theorem applyItems_featured_sticky :
    ∀ (data : List (String × Value)) (p : Product),
      p.featured = Value.vBool true →
      (∀ v, ("featured", v) ∈ data → v = Value.vNone ∨ v = Value.vBool true) →
      (applyItems p data).featured = Value.vBool true := by
  intro data
  induction data with
  | nil => intro p hp _; exact hp
  | cons kv rest ih =>
    intro p hp hd
    obtain ⟨k0, v0⟩ := kv
    rw [applyItems]
    refine ih (applyStep p k0 v0) ?_ (fun v hv => hd v (List.mem_cons_of_mem _ hv))
    rw [applyStep_featured]
    split_ifs with h
    · rcases hd v0 (h.1 ▸ List.mem_cons_self _ _) with h1 | h1
      · exact absurd h1 h.2
      · exact h1
    · exact hp

theorem lookupVal_cons (k0 k : String) (v0 : Value) (rest : List (String × Value)) :
    lookupVal ((k0, v0) :: rest) k = if k0 = k then some v0 else lookupVal rest k := by
  by_cases h : k0 = k <;> simp [lookupVal, List.find?_cons, h]

theorem applyItems_featured_lookup (v : Value) (hv : v ≠ Value.vNone) :
    ∀ (data : List (String × Value)) (p : Product),
      (data.map Prod.fst).Nodup → lookupVal data "featured" = some v →
      (applyItems p data).featured = v := by
  intro data
  induction data with
  | nil => intro p _ hl; simp [lookupVal] at hl
  | cons kv rest ih =>
    intro p hnd hl
    obtain ⟨k0, v0⟩ := kv
    simp only [List.map_cons, List.nodup_cons] at hnd
    rw [applyItems]
    by_cases hk : k0 = "featured"
    · subst hk
      rw [lookupVal_cons, if_pos rfl] at hl
      obtain rfl : v0 = v := by simpa using hl
      have h2 := getattr_applyItems_not_mem rest "featured" hnd.1 (applyStep p "featured" v0)
      rw [getattr_featured, getattr_featured] at h2
      rw [h2, applyStep_featured, if_pos ⟨rfl, hv⟩]
    · rw [lookupVal_cons, if_neg hk] at hl
      exact ih (applyStep p k0 v0) hnd.2 hl

theorem lookupVal_eq_of_mem_nodup :
    ∀ (data : List (String × Value)) (k : String) (v : Value),
      (data.map Prod.fst).Nodup → (k, v) ∈ data → lookupVal data k = some v := by
  intro data
  induction data with
  | nil => intro k v _ hmem; cases hmem
  | cons kv rest ih =>
    intro k v hnd hmem
    obtain ⟨k0, v0⟩ := kv
    simp only [List.map_cons, List.nodup_cons] at hnd
    rcases List.mem_cons.mp hmem with heq | hmem'
    · rw [Prod.mk.injEq] at heq
      obtain ⟨rfl, rfl⟩ := heq
      rw [lookupVal_cons, if_pos rfl]
    · rw [lookupVal_cons, if_neg ?_]
      · exact ih k v hnd.2 hmem'
      · intro hk
        subst hk
        exact hnd.1 (List.mem_map.mpr ⟨(k0, v), hmem', rfl⟩)

theorem getattr_set_featured_ne (p : Product) (w : Value) (k : String)
    (hk : k ≠ "featured") :
    getattr { p with featured := w } k = getattr p k := by
  cases hA : attrOfString k with
  | none => rw [getattr_def_none _ _ hA, getattr_def_none _ _ hA]
  | some a =>
    have ha : a ≠ Attr.featured := by
      intro he
      exact hk (by rw [eq_attrName_of_attrOfString hA, he]; rfl)
    have : ({ p with featured := w } : Product) = setAttrA p Attr.featured w := rfl
    rw [this, getattr_def _ _ _ hA, getattr_def _ _ _ hA,
      getAttrA_setAttrA_ne p Attr.featured a w (fun he => ha he.symm)]

theorem on_update_of_featured_set (p : Product) (data : List (String × Value)) (fv : Value)
    (hl : lookupVal data "featured" = some fv) (hfv : fv ≠ Value.vNone) :
    Product.on_update p data = .ok p := by
  unfold Product.on_update
  rw [hl]
  simp [hfv]

theorem on_update_promote (p : Product) (data : List (String × Value)) (r : ℚ)
    (hf : lookupVal data "featured" = some Value.vNone)
    (hr : lookupVal data "rating" = some (Value.vFloat r))
    (hgt : (FEATURED_THRESHOLD : ℚ) < r) :
    Product.on_update p data = .ok { p with featured := Value.vBool true } := by
  unfold Product.on_update
  rw [hf]
  simp [hr, ratingGtThreshold, hgt]

theorem on_update_featured_result (p q : Product) (data : List (String × Value))
    (h : Product.on_update p data = .ok q) :
    q = p ∨ (lookupVal data "featured" = some Value.vNone ∧
      q = { p with featured := Value.vBool true }) := by
  unfold Product.on_update at h
  cases hf : lookupVal data "featured" with
  | none => simp only [hf] at h; cases h
  | some fv =>
    simp only [hf] at h
    by_cases hfv : fv = Value.vNone
    · simp only [if_pos hfv] at h
      cases hr : lookupVal data "rating" with
      | none => simp only [hr] at h; cases h
      | some rv =>
        simp only [hr] at h
        cases hg : ratingGtThreshold rv with
        | error e => simp only [hg] at h; cases h
        | ok b =>
          simp only [hg] at h
          cases b with
          | false =>
            left
            simpa using h.symm
          | true =>
            right
            refine ⟨by rw [hfv], ?_⟩
            simpa using h.symm
    · simp only [if_neg hfv] at h
      left
      simpa using h.symm

theorem update_err_spec (p : Product) (data : List (String × Value)) :
    (Product.update p data).2 =
      match lookupVal data "featured" with
      | none => some (PyErr.keyError "featured")
      | some fv =>
        if fv = Value.vNone then
          match lookupVal data "rating" with
          | none => some (PyErr.keyError "rating")
          | some rv =>
            match ratingGtThreshold rv with
            | .error e => some e
            | .ok _ => none
        else none := by
  unfold Product.update Product.on_update
  cases hf : lookupVal data "featured" with
  | none => simp only [hf]
  | some fv =>
    simp only [hf]
    by_cases hfv : fv = Value.vNone
    · simp only [if_pos hfv]
      cases hr : lookupVal data "rating" with
      | none => simp only [hr]
      | some rv =>
        simp only [hr]
        cases hg : ratingGtThreshold rv with
        | error e => simp only [hg]
        | ok b => cases b <;> simp only [hg]
    · simp only [if_neg hfv]

theorem update_fst_of_err (p : Product) (data : List (String × Value))
    (h : (Product.update p data).2 ≠ none) :
    (Product.update p data).1 = applyItems p data := by
  unfold Product.update at h ⊢
  cases hu : Product.on_update (applyItems p data) data with
  | error e => simp only [hu]
  | ok q => simp only [hu] at h; exact absurd rfl h

theorem update_fst_of_ok (p q : Product) (data : List (String × Value))
    (h : Product.on_update (applyItems p data) data = .ok q) :
    Product.update p data = (q, none) := by
  unfold Product.update
  simp only [h]

theorem ratingGtThreshold_error (rv : Value) (e : PyErr)
    (h : ratingGtThreshold rv = .error e) : e = PyErr.typeError := by
  cases rv <;> simp [ratingGtThreshold] at h <;> exact h.symm

theorem update_keyerror_featured_iff (p : Product) (data : List (String × Value)) :
    (Product.update p data).2 = some (PyErr.keyError "featured") ↔
      lookupVal data "featured" = none := by
  unfold Product.update Product.on_update
  cases hf : lookupVal data "featured" with
  | none => simp [hf]
  | some fv =>
    by_cases hfv : fv = Value.vNone
    · cases hr : lookupVal data "rating" with
      | none => simp [hf, if_pos hfv, hr]
      | some rv =>
        cases hg : ratingGtThreshold rv with
        | error e => simp [hf, if_pos hfv, hr, hg, ratingGtThreshold_error rv e hg]
        | ok b => cases b <;> simp [hf, if_pos hfv, hr, hg]
    · simp [hf, if_neg hfv]

theorem update_keyerror_rating_iff (p : Product) (data : List (String × Value))
    (hN : lookupVal data "featured" = some Value.vNone) :
    (Product.update p data).2 = some (PyErr.keyError "rating") ↔
      lookupVal data "rating" = none := by
  unfold Product.update Product.on_update
  cases hr : lookupVal data "rating" with
  | none => simp [hN, hr]
  | some rv =>
    cases hg : ratingGtThreshold rv with
    | error e => simp [hN, hr, hg, ratingGtThreshold_error rv e hg]
    | ok b => cases b <;> simp [hN, hr, hg]

/-! ## Claim theorems -/

/-- C1: the spec says a create / partial update whose payload does not
explicitly set `featured` succeeds, with `featured` forced to true when
the supplied rating exceeds 8.  The code disagrees: `build_product_args`
emits only explicitly-set fields (`exclude_unset=True`), so such a
dictionary lacks the key `"featured"` and `Product.on_update` raises
`KeyError("featured")` — on the update path and on the create path alike
— and `featured` is not set to true.  This evaluates the code at the
failing inputs (the repository's own tests `test_acceptance_criteria_4`
and `test_create_product` expect these operations to succeed). -/
theorem claim_C1_featured_rule_keyerror :
    (Product.update sampleProduct [("rating", Value.vFloat 9)]).2
        = some (PyErr.keyError "featured") ∧
    (Product.update sampleProduct [("rating", Value.vFloat 9)]).1.featured
        = Value.vBool false ∧
    (Product.create [("name", Value.vStr "test"), ("rating", Value.vFloat 9),
        ("brand", Value.vBrand ⟨1, "test", "RU"⟩),
        ("categories", Value.vCategories [⟨1, "test"⟩]),
        ("items_in_stock", Value.vInt 10)]).2 = some (PyErr.keyError "featured") := by
  decide

/-- C2 counterexample: the claim says `featured = true` survives *any*
update payload whatsoever.  It does not: an update whose data explicitly
sets `featured` to (non-null) `False` is written by the merge loop and
the automatic rule never turns it back on, so the update succeeds and
the product ends with `featured = false`. -/
theorem counterexample_C2_explicit_false_clears_featured :
    sampleFeatured.featured = Value.vBool true ∧
    Product.update sampleFeatured
        [("featured", Value.vBool false), ("rating", Value.vFloat 5)]
      = ({ sampleFeatured with featured := Value.vBool false }, none) := by
  decide

/-- C2 (amended): for a product with `featured = true`, any update whose
data never maps `"featured"` to an explicit non-null value other than
`True` — in particular any update that does not name `featured` at all,
e.g. one that merely lowers the rating — leaves `featured = true` in the
entity state afterwards, whether the update returns normally or raises. -/
theorem claim_C2_featured_sticky_amended (p : Product) (data : List (String × Value))
    (hp : p.featured = Value.vBool true)
    (hd : ∀ v, ("featured", v) ∈ data → v = Value.vNone ∨ v = Value.vBool true) :
    ((Product.update p data).1).featured = Value.vBool true := by
  have h1 := applyItems_featured_sticky data p hp hd
  unfold Product.update
  cases hu : Product.on_update (applyItems p data) data with
  | error e =>
    simp only [hu]
    exact h1
  | ok q =>
    simp only [hu]
    rcases on_update_featured_result _ q data hu with rfl | ⟨_, rfl⟩
    · exact h1
    · rfl

/-- C2 witness: a featured product stays featured across an update that
only lowers the rating (the update raises `KeyError`, but the entity
keeps `featured = true`). -/
theorem witness_C2_featured_sticky :
    ((Product.update sampleFeatured [("rating", Value.vFloat 3)]).1).featured
      = Value.vBool true :=
  claim_C2_featured_sticky_amended sampleFeatured [("rating", Value.vFloat 3)]
    (by decide) (by intro v hv; simp at hv)

/-- C3 counterexample: the claim says the automatic promotion runs after
the merge and can force `featured = true` even when the payload
explicitly supplied `featured = false` and the rating exceeds 8.  In the
code the promotion requires `data["featured"] is None`, so an explicit
`False` stands: the update succeeds and `featured` stays false. -/
theorem counterexample_C3_explicit_false_beats_promotion :
    Product.update sampleProduct
        [("featured", Value.vBool false), ("rating", Value.vFloat 9)]
      = ({ sampleProduct with
            rating := Value.vFloat 9
            featured := Value.vBool false }, none) ∧
    (Value.vBool false ≠ Value.vBool true) := by
  decide

/-- C3 (amended): the merge writes an explicitly supplied non-null
`featured` value first, and the automatic check evaluated afterwards
never overrides it (the update returns normally with exactly that
value); the promotion to true fires only when the supplied `featured`
is null and the supplied rating exceeds the threshold 8. -/
theorem claim_C3_explicit_featured_amended (p : Product)
    (data : List (String × Value)) (b : Bool)
    (hnd : (data.map Prod.fst).Nodup)
    (hf : lookupVal data "featured" = some (Value.vBool b)) :
    (applyItems p data).featured = Value.vBool b ∧
    Product.update p data = (applyItems p data, none) ∧
    (∀ (p' : Product) (data' : List (String × Value)) (r : ℚ),
      lookupVal data' "featured" = some Value.vNone →
      lookupVal data' "rating" = some (Value.vFloat r) →
      (FEATURED_THRESHOLD : ℚ) < r →
      ((Product.update p' data').1).featured = Value.vBool true) := by
  refine ⟨applyItems_featured_lookup (Value.vBool b) (by simp) data p hnd hf, ?_, ?_⟩
  · exact update_fst_of_ok p _ data
      (on_update_of_featured_set _ data (Value.vBool b) hf (by simp))
  · intro p' data' r hf' hr' hgt
    rw [update_fst_of_ok p' _ data' (on_update_promote _ data' r hf' hr' hgt)]

/-- C3 witness: explicit `featured = false` with rating 9 stays false,
explicit null `featured` with rating 9 is promoted to true. -/
theorem witness_C3_explicit_featured :
    ((applyItems sampleProduct
        [("featured", Value.vBool false), ("rating", Value.vFloat 9)]).featured
      = Value.vBool false) ∧
    ((Product.update sampleProduct
        [("featured", Value.vNone), ("rating", Value.vFloat 9)]).1).featured
      = Value.vBool true := by
  have h := claim_C3_explicit_featured_amended sampleProduct
    [("featured", Value.vBool false), ("rating", Value.vFloat 9)] false
    (by decide) (by decide)
  exact ⟨h.1, h.2.2 sampleProduct [("featured", Value.vNone), ("rating", Value.vFloat 9)]
    9 (by decide) (by decide) (by decide)⟩

/-- C4: the spec (and the repository test `test_update_product`) say an
update whose payload is exactly `{name: "X"}` succeeds, changes `name`,
and leaves every other field untouched.  The code writes `name` and does
leave everything else untouched, but then `Product.on_update` raises
`KeyError("featured")`, so the operation fails: validation accepts the
payload, `build_product_args` produces `{"name": "X"}`, and
`Product.update` ends in the exception with the entity partially
modified. -/
theorem claim_C4_name_only_update_keyerror :
    updateErrors 0 (fun _ => none) [("name", JVal.jStr "X")] = [] ∧
    build_product_args [] [] (parseUpdate (fun _ => none) [("name", JVal.jStr "X")])
      = .ok [("name", Value.vStr "X")] ∧
    Product.update sampleProduct [("name", Value.vStr "X")]
      = ({ sampleProduct with name := Value.vStr "X" }, some (PyErr.keyError "featured")) := by
  exact ⟨by decide, rfl, by decide⟩

/-- C10 counterexample: the claim says `Product.update` raises a
key-lookup error whenever the dictionary lacks `"featured"` *or* lacks
`"rating"`.  A dictionary carrying a non-null `featured` but no
`rating` refutes it: `and` short-circuits, so `data["rating"]` is never
evaluated and the update returns without error. -/
theorem counterexample_C10_featured_without_rating :
    (Product.update sampleProduct [("featured", Value.vBool true)]).2 = none := by
  decide

/-- C10 (amended): `Product.update` raises `KeyError("featured")` exactly
when the dictionary lacks `"featured"`, and — when `featured` is present
as null — `KeyError("rating")` exactly when it lacks `"rating"`; when it
raises, the entity is left in the merged (partially updated) state, in
which every recognised key of the dictionary (other than a null-valued
`featured`, which the loop skips) has already been written: the update
is not atomic. -/
theorem claim_C10_keyerror_amended (p : Product) (data : List (String × Value)) :
    ((Product.update p data).2 = some (PyErr.keyError "featured") ↔
      lookupVal data "featured" = none) ∧
    (lookupVal data "featured" = some Value.vNone →
      ((Product.update p data).2 = some (PyErr.keyError "rating") ↔
        lookupVal data "rating" = none)) ∧
    ((Product.update p data).2 ≠ none → (Product.update p data).1 = applyItems p data) ∧
    ((data.map Prod.fst).Nodup →
      ∀ k v, (k, v) ∈ data → hasattr k = true → ¬(k = "featured" ∧ v = Value.vNone) →
        getattr ((Product.update p data).1) k = v) := by
  refine ⟨update_keyerror_featured_iff p data,
    fun hN => update_keyerror_rating_iff p data hN, update_fst_of_err p data, ?_⟩
  intro hnd k v hmem hattr hns
  unfold Product.update
  cases hu : Product.on_update (applyItems p data) data with
  | error e =>
    simp only [hu]
    exact getattr_applyItems_mem k v hattr hns data p hnd hmem
  | ok q =>
    simp only [hu]
    rcases on_update_featured_result _ q data hu with rfl | ⟨hfN, rfl⟩
    · exact getattr_applyItems_mem k v hattr hns data p hnd hmem
    · by_cases hk : k = "featured"
      · exfalso
        subst hk
        have hv := lookupVal_eq_of_mem_nodup data "featured" v hnd hmem
        rw [hfN] at hv
        obtain rfl : v = Value.vNone := by simpa using hv.symm
        exact hns ⟨rfl, rfl⟩
      · have hgf := getattr_set_featured_ne (applyItems p data) (Value.vBool true) k hk
        simp only [hgf]
        exact getattr_applyItems_mem k v hattr hns data p hnd hmem

/-- C10 witness: a dictionary with only `name` raises
`KeyError("featured")` and leaves `name` written on the entity. -/
theorem witness_C10_keyerror :
    (Product.update sampleProduct [("name", Value.vStr "Y")]).2
        = some (PyErr.keyError "featured") ∧
    getattr ((Product.update sampleProduct [("name", Value.vStr "Y")]).1) "name"
        = Value.vStr "Y" := by
  have h := claim_C10_keyerror_amended sampleProduct [("name", Value.vStr "Y")]
  exact ⟨h.1.mpr (by decide),
    h.2.2.2 (by decide) "name" (Value.vStr "Y") (by decide) (by decide) (by decide)⟩

theorem get_all_found_length (db : List CategoryRec) (ids : List ℤ)
    (hdb : (db.map CategoryRec.id).Nodup) (hids : ids.Nodup) :
    (db.filter (fun c => c.id ∈ ids)).length
      = (ids.filter (fun i => i ∈ db.map CategoryRec.id)).length := by
  have hn1 : ((db.filter (fun c => c.id ∈ ids)).map CategoryRec.id).Nodup :=
    hdb.sublist (List.Sublist.map CategoryRec.id (List.filter_sublist db))
  have hn2 : (ids.filter (fun i => i ∈ db.map CategoryRec.id)).Nodup :=
    hids.sublist (List.filter_sublist ids)
  have hmem : ∀ a, a ∈ (db.filter (fun c => c.id ∈ ids)).map CategoryRec.id ↔
      a ∈ ids.filter (fun i => i ∈ db.map CategoryRec.id) := by
    intro a
    simp only [List.mem_map, List.mem_filter, decide_eq_true_eq]
    constructor
    · rintro ⟨c, ⟨hcdb, hcid⟩, rfl⟩
      exact ⟨hcid, c, hcdb, rfl⟩
    · rintro ⟨haids, c, hcdb, rfl⟩
      exact ⟨c, ⟨hcdb, haids⟩, rfl⟩
  calc (db.filter (fun c => c.id ∈ ids)).length
      = ((db.filter (fun c => c.id ∈ ids)).map CategoryRec.id).length :=
        (List.length_map _ _).symm
    _ = (ids.filter (fun i => i ∈ db.map CategoryRec.id)).length :=
        ((List.perm_ext_iff_of_nodup hn1 hn2).mpr hmem).length_eq

/-- C6: resolving category ids is all-or-nothing — when every id exists a
handle comes back for each id, and when any id is missing the whole call
fails with a `NotFound` enumerating exactly the missing ids (each as
`"Category[<id>]"`, every one of them, not just the first) and no
partial result is returned; resolving a nonexistent brand id likewise
fails with `NotFound(["Brand[<id>]"])`.  The hypotheses state that ids
are primary keys (no duplicate rows) and that the requested ids form a
set, as `conset` guarantees. -/
theorem claim_C6_referential_resolver (db : List CategoryRec) (ids : List ℤ)
    (brandDb : List BrandRec) (bid : ℤ)
    (hdb : (db.map CategoryRec.id).Nodup) (hids : ids.Nodup) :
    ((∀ i ∈ ids, ∃ c ∈ db, c.id = i) →
      ∃ cs, Category.get_all db ids = .ok cs ∧ ∀ i ∈ ids, ∃ c ∈ cs, c.id = i) ∧
    ((∃ i ∈ ids, ∀ c ∈ db, c.id ≠ i) →
      Category.get_all db ids =
        .error ⟨(ids.filter (fun i => ¬ ∃ c ∈ db, c.id = i)).map
          (fun i => "Category[" ++ toString i ++ "]")⟩) ∧
    ((∀ b ∈ brandDb, b.id ≠ bid) →
      Brand.get brandDb bid = .error ⟨["Brand[" ++ toString bid ++ "]"]⟩) := by
  refine ⟨?_, ?_, ?_⟩
  · intro hall
    refine ⟨db.filter (fun c => c.id ∈ ids), ?_, ?_⟩
    · have heq : ids.filter (fun i => i ∈ db.map CategoryRec.id) = ids :=
        List.filter_eq_self.mpr (by
          intro i hi
          obtain ⟨c, hc, hcid⟩ := hall i hi
          simpa using List.mem_map.mpr ⟨c, hc, hcid⟩)
      have hlen : (db.filter (fun c => c.id ∈ ids)).length = ids.length := by
        rw [get_all_found_length db ids hdb hids, heq]
      simp only [Category.get_all]
      rw [if_neg (by simpa using hlen)]
    · intro i hi
      obtain ⟨c, hc, hcid⟩ := hall i hi
      exact ⟨c, List.mem_filter.mpr ⟨hc, by simpa [hcid] using hi⟩, hcid⟩
  · intro hmiss
    have hlt : (ids.filter (fun i => i ∈ db.map CategoryRec.id)).length < ids.length := by
      apply List.length_filter_lt_length_iff_exists.mpr
      obtain ⟨i, hi, hnotin⟩ := hmiss
      refine ⟨i, hi, ?_⟩
      simp only [List.mem_map, decide_eq_true_eq]
      rintro ⟨c, hc, hcid⟩
      exact hnotin c hc hcid
    have hne : (db.filter (fun c => c.id ∈ ids)).length ≠ ids.length := by
      rw [get_all_found_length db ids hdb hids]
      exact Nat.ne_of_lt hlt
    simp only [Category.get_all]
    rw [if_pos (by simpa using hne)]
    have hfc : ids.filter
          (fun i => ¬ i ∈ (db.filter (fun c => c.id ∈ ids)).map CategoryRec.id)
        = ids.filter (fun i => ¬ ∃ c ∈ db, c.id = i) := by
      apply List.filter_congr
      intro i hi
      apply decide_eq_decide.mpr
      apply not_congr
      constructor
      · intro hmem
        obtain ⟨c, hc, rfl⟩ := List.mem_map.mp hmem
        exact ⟨c, (List.mem_filter.mp hc).1, rfl⟩
      · rintro ⟨c, hc, rfl⟩
        exact List.mem_map.mpr ⟨c, List.mem_filter.mpr ⟨hc, by simpa using hi⟩, rfl⟩
    rw [hfc]
  · intro hb
    unfold Brand.get
    rw [List.find?_eq_none.mpr (by
      intro b hbdb
      simpa using hb b hbdb)]

/-- C6 witness: with one category row `id = 1`, resolving `{1}` returns a
handle for it; resolving `{2, 3}` enumerates both missing ids; a brand
lookup in an empty table names `Brand[7]`. -/
theorem witness_C6_referential_resolver :
    (∃ cs, Category.get_all [⟨1, "a"⟩] [1] = .ok cs ∧
      ∀ i ∈ ([1] : List ℤ), ∃ c ∈ cs, c.id = i) ∧
    Category.get_all [⟨1, "a"⟩] [2, 3] = .error ⟨["Category[2]", "Category[3]"]⟩ ∧
    Brand.get [] 7 = .error ⟨["Brand[7]"]⟩ := by
  refine ⟨(claim_C6_referential_resolver [⟨1, "a"⟩] [1] [] 7 (by decide) (by decide)).1
      (by decide), ?_, ?_⟩
  · have h := (claim_C6_referential_resolver [⟨1, "a"⟩] [2, 3] [] 7
      (by decide) (by decide)).2.1 (by decide)
    rw [h]
    rfl
  · exact (claim_C6_referential_resolver [⟨1, "a"⟩] [2, 3] [] 7
      (by decide) (by decide)).2.2 (by decide)

/-! ## Frame lemmas for the update dictionary -/

theorem optEntry_key {α : Type} (k : String) (o : Option (Option α)) (enc : α → Value)
    (kv : String × Value) (h : kv ∈ optEntry k o enc) : kv.1 = k := by
  cases o with
  | none => cases h
  | some ov =>
    cases ov with
    | none =>
      rw [List.mem_singleton.mp h]
    | some a =>
      rw [List.mem_singleton.mp h]

theorem updateDict_keys (u : UpdateParsed) (kv : String × Value)
    (h : kv ∈ updateDict u) : kv.1 ∈ updateFieldNames := by
  unfold updateDict at h
  simp only [List.mem_append] at h
  rcases h with ((((((h | h) | h) | h) | h) | h) | h) | h <;>
    rw [optEntry_key _ _ _ _ h] <;> simp [updateFieldNames]

theorem setKey_keys (d : List (String × Value)) (k : String) (v : Value)
    (kv : String × Value) (h : kv ∈ setKey d k v) :
    kv.1 = k ∨ ∃ kv0 ∈ d, kv.1 = kv0.1 := by
  unfold setKey at h
  split_ifs at h with hany
  · obtain ⟨kv0, hkv0, heq⟩ := List.mem_map.mp h
    by_cases hc : kv0.1 = k
    · rw [if_pos hc] at heq
      left
      rw [← heq]
      exact hc
    · rw [if_neg hc] at heq
      right
      exact ⟨kv0, hkv0, by rw [← heq]⟩
  · rcases List.mem_append.mp h with h1 | h1
    · exact Or.inr ⟨kv, h1, rfl⟩
    · left
      rw [List.mem_singleton.mp h1]

theorem build_product_args_keys (brandDb : List BrandRec) (catDb : List CategoryRec)
    (u : UpdateParsed) (d : List (String × Value))
    (h : build_product_args brandDb catDb u = .ok d) :
    ∀ kv ∈ d, kv.1 ∈ updateFieldNames := by
  have hbase : ∀ kv ∈ updateDict u, kv.1 ∈ updateFieldNames := updateDict_keys u
  have hstep : ∀ (d0 : List (String × Value)) (k : String) (v : Value),
      (∀ kv ∈ d0, kv.1 ∈ updateFieldNames) → k ∈ updateFieldNames →
      ∀ kv ∈ setKey d0 k v, kv.1 ∈ updateFieldNames := by
    intro d0 k v hd0 hk kv hkv
    rcases setKey_keys d0 k v kv hkv with h1 | ⟨kv0, hkv0, h1⟩
    · rw [h1]; exact hk
    · rw [h1]; exact hd0 kv0 hkv0
  unfold build_product_args at h
  cases hbr : u.brand with
  | none =>
    simp only [hbr] at h
    cases hcat : u.categories with
    | none =>
      simp only [hcat] at h
      obtain rfl : updateDict u = d := by simpa using h
      exact hbase
    | some oc =>
      cases oc with
      | none =>
        simp only [hcat] at h
        obtain rfl : updateDict u = d := by simpa using h
        exact hbase
      | some ids =>
        simp only [hcat] at h
        cases hg : Category.get_all catDb ids with
        | error e => simp only [hg] at h; cases h
        | ok cs =>
          simp only [hg] at h
          obtain rfl : setKey (updateDict u) "categories" (.vCategories cs) = d := by
            simpa using h
          exact hstep _ _ _ hbase (by simp [updateFieldNames])
  | some ob =>
    cases ob with
    | none =>
      simp only [hbr] at h
      cases hcat : u.categories with
      | none =>
        simp only [hcat] at h
        obtain rfl : updateDict u = d := by simpa using h
        exact hbase
      | some oc =>
        cases oc with
        | none =>
          simp only [hcat] at h
          obtain rfl : updateDict u = d := by simpa using h
          exact hbase
        | some ids =>
          simp only [hcat] at h
          cases hg : Category.get_all catDb ids with
          | error e => simp only [hg] at h; cases h
          | ok cs =>
            simp only [hg] at h
            obtain rfl : setKey (updateDict u) "categories" (.vCategories cs) = d := by
              simpa using h
            exact hstep _ _ _ hbase (by simp [updateFieldNames])
    | some bid =>
      simp only [hbr] at h
      cases hb : Brand.get brandDb bid with
      | error e => simp only [hb] at h; cases h
      | ok br =>
        simp only [hb] at h
        have hbase2 : ∀ kv ∈ setKey (updateDict u) "brand" (.vBrand br),
            kv.1 ∈ updateFieldNames :=
          hstep _ _ _ hbase (by simp [updateFieldNames])
        cases hcat : u.categories with
        | none =>
          simp only [hcat] at h
          obtain rfl : setKey (updateDict u) "brand" (.vBrand br) = d := by simpa using h
          exact hbase2
        | some oc =>
          cases oc with
          | none =>
            simp only [hcat] at h
            obtain rfl : setKey (updateDict u) "brand" (.vBrand br) = d := by simpa using h
            exact hbase2
          | some ids =>
            simp only [hcat] at h
            cases hg : Category.get_all catDb ids with
            | error e => simp only [hg] at h; cases h
            | ok cs =>
              simp only [hg] at h
              obtain rfl : setKey (setKey (updateDict u) "brand" (.vBrand br))
                  "categories" (.vCategories cs) = d := by simpa using h
              exact hstep _ _ _ hbase2 (by simp [updateFieldNames])

theorem applyStep_id (p : Product) (k : String) (v : Value) (hk : k ≠ "id") :
    (applyStep p k v).id = p.id := by
  have h := getattr_applyStep p k "id" v
  rw [getattr_id, getattr_id] at h
  rw [h, if_neg (fun hc => hk hc.1.symm)]

theorem applyStep_created_at (p : Product) (k : String) (v : Value)
    (hk : k ≠ "created_at") : (applyStep p k v).created_at = p.created_at := by
  have h := getattr_applyStep p k "created_at" v
  rw [getattr_created_at, getattr_created_at] at h
  rw [h, if_neg (fun hc => hk hc.1.symm)]

theorem applyItems_id_created_at :
    ∀ (data : List (String × Value)) (p : Product),
      (∀ kv ∈ data, kv.1 ≠ "id" ∧ kv.1 ≠ "created_at") →
      (applyItems p data).id = p.id ∧ (applyItems p data).created_at = p.created_at := by
  intro data
  induction data with
  | nil => intro p _; exact ⟨rfl, rfl⟩
  | cons kv rest ih =>
    intro p hd
    obtain ⟨k0, v0⟩ := kv
    have hk0 := hd (k0, v0) (List.mem_cons_self _ _)
    have hrest := ih (applyStep p k0 v0) (fun kv hkv => hd kv (List.mem_cons_of_mem _ hkv))
    rw [applyItems]
    exact ⟨by rw [hrest.1, applyStep_id p k0 v0 hk0.1],
      by rw [hrest.2, applyStep_created_at p k0 v0 hk0.2]⟩

/-- C9: through the whole update path — schema parsing that reads only
the declared fields (so a payload naming `id` or `created_at` is
ignored), `build_product_args`, and the entity merge — the product's
`id` and `created_at` are unchanged, whether the merge returns normally
or raises. -/
theorem claim_C9_id_created_at_immutable (raw : List (String × JVal))
    (rfcParse : String → Option ℚ) (brandDb : List BrandRec) (catDb : List CategoryRec)
    (p : Product) (d : List (String × Value))
    (hbuild : build_product_args brandDb catDb (parseUpdate rfcParse raw) = .ok d) :
    ((Product.update p d).1).id = p.id ∧
    ((Product.update p d).1).created_at = p.created_at := by
  have hkeys := build_product_args_keys brandDb catDb (parseUpdate rfcParse raw) d hbuild
  have hne : ∀ kv ∈ d, kv.1 ≠ "id" ∧ kv.1 ≠ "created_at" := by
    intro kv hkv
    have hmem := hkeys kv hkv
    have : ∀ s ∈ updateFieldNames, s ≠ "id" ∧ s ≠ "created_at" := by decide
    exact this kv.1 hmem
  have hitems := applyItems_id_created_at d p hne
  unfold Product.update
  cases hu : Product.on_update (applyItems p d) d with
  | error e =>
    simp only [hu]
    exact hitems
  | ok q =>
    simp only [hu]
    rcases on_update_featured_result _ q d hu with rfl | ⟨_, rfl⟩
    · exact hitems
    · exact hitems

/-- C9 witness: a payload that names `id` and `created_at` leaves both
untouched (only `name` is applied). -/
theorem witness_C9_id_created_at :
    ((Product.update sampleProduct [("name", Value.vStr "X")]).1).id
        = sampleProduct.id ∧
    ((Product.update sampleProduct [("name", Value.vStr "X")]).1).created_at
        = sampleProduct.created_at :=
  claim_C9_id_created_at_immutable
    [("id", JVal.jNum 99), ("name", JVal.jStr "X"), ("created_at", JVal.jNum 5)]
    (fun _ => none) [] [] sampleProduct [("name", Value.vStr "X")] rfl

/-! ## Error-location lemmas for the validation schemas -/

theorem requiredField_loc {α : Type} (k : String) (payload : List (String × JVal))
    (f : JVal → Except String α) : ∀ e ∈ requiredField k payload f, e.loc = k := by
  intro e he
  unfold requiredField at he
  cases h : lookupKey payload k with
  | none =>
    simp only [h] at he
    rw [List.mem_singleton.mp he]
  | some v =>
    simp only [h] at he
    cases h2 : f v with
    | error m =>
      simp only [h2] at he
      rw [List.mem_singleton.mp he]
    | ok a => simp only [h2] at he; cases he

theorem optionalField_loc {α : Type} (k : String) (payload : List (String × JVal))
    (f : JVal → Except String α) : ∀ e ∈ optionalField k payload f, e.loc = k := by
  intro e he
  unfold optionalField at he
  cases h : lookupKey payload k with
  | none => simp only [h] at he; cases he
  | some v =>
    simp only [h] at he
    by_cases hn : v.isNull = true
    · rw [if_pos hn] at he; cases he
    · rw [if_neg hn] at he
      cases h2 : f v with
      | error m =>
        simp only [h2] at he
        rw [List.mem_singleton.mp he]
      | ok a => simp only [h2] at he; cases he

theorem receiptDateErrors_loc (rfcParse : String → Option ℚ)
    (payload : List (String × JVal)) :
    ∀ e ∈ receiptDateErrors rfcParse payload, e.loc = "receipt_date" := by
  intro e he
  unfold receiptDateErrors at he
  cases h : lookupKey payload "receipt_date" with
  | none => simp only [h] at he; cases he
  | some v =>
    simp only [h] at he
    cases h2 : datetimeTypeCheck (parse_rfc_1123_datetime rfcParse v) with
    | error m =>
      simp only [h2] at he
      rw [List.mem_singleton.mp he]
    | ok d => simp only [h2] at he; cases he

theorem expirationDateErrors_loc (now : ℚ) (rfcParse : String → Option ℚ)
    (payload : List (String × JVal)) :
    ∀ e ∈ expirationDateErrors now rfcParse payload, e.loc = "expiration_date" := by
  intro e he
  unfold expirationDateErrors at he
  cases h : lookupKey payload "expiration_date" with
  | none => simp only [h] at he; cases he
  | some v =>
    simp only [h] at he
    cases h2 : datetimeTypeCheck (parse_rfc_1123_datetime rfcParse v) with
    | error m =>
      simp only [h2] at he
      rw [List.mem_singleton.mp he]
    | ok d =>
      simp only [h2] at he
      cases h3 : validate_expiration_date now d with
      | error m =>
        simp only [h3] at he
        rw [List.mem_singleton.mp he]
      | ok x => simp only [h3] at he; cases he

theorem filter_loc_nil {k k' : String} (errs : List FieldError)
    (hloc : ∀ e ∈ errs, e.loc = k) (hne : k ≠ k') :
    errs.filter (fun e => e.loc = k') = [] :=
  List.filter_eq_nil_iff.mpr (fun e he => by simp [hloc e he, hne])

theorem filter_loc_self {k : String} (errs : List FieldError)
    (hloc : ∀ e ∈ errs, e.loc = k) :
    errs.filter (fun e => e.loc = k) = errs :=
  List.filter_eq_self.mpr (fun e he => by simp [hloc e he])

theorem createErrors_filter_expiration (now : ℚ) (rfcParse : String → Option ℚ)
    (payload : List (String × JVal)) :
    (createErrors now rfcParse payload).filter (fun e => e.loc = "expiration_date")
      = expirationDateErrors now rfcParse payload := by
  unfold createErrors
  simp only [List.filter_append]
  rw [filter_loc_nil _ (requiredField_loc "name" payload parseName) (by decide),
    filter_loc_nil _ (requiredField_loc "rating" payload parseRating) (by decide),
    filter_loc_nil _ (optionalField_loc "featured" payload parseBool) (by decide),
    filter_loc_nil _ (receiptDateErrors_loc rfcParse payload) (by decide),
    filter_loc_self _ (expirationDateErrors_loc now rfcParse payload),
    filter_loc_nil _ (requiredField_loc "brand" payload parseInt) (by decide),
    filter_loc_nil _ (requiredField_loc "categories" payload parseCategories) (by decide),
    filter_loc_nil _ (requiredField_loc "items_in_stock" payload parsePositiveInt) (by decide)]
  simp

theorem updateErrors_filter_expiration (now : ℚ) (rfcParse : String → Option ℚ)
    (payload : List (String × JVal)) :
    (updateErrors now rfcParse payload).filter (fun e => e.loc = "expiration_date")
      = expirationDateErrors now rfcParse payload := by
  unfold updateErrors
  simp only [List.filter_append]
  rw [filter_loc_nil _ (optionalField_loc "name" payload parseName) (by decide),
    filter_loc_nil _ (optionalField_loc "rating" payload parseRating) (by decide),
    filter_loc_nil _ (optionalField_loc "featured" payload parseBool) (by decide),
    filter_loc_nil _ (receiptDateErrors_loc rfcParse payload) (by decide),
    filter_loc_self _ (expirationDateErrors_loc now rfcParse payload),
    filter_loc_nil _ (optionalField_loc "brand" payload parseInt) (by decide),
    filter_loc_nil _ (optionalField_loc "categories" payload parseCategories) (by decide),
    filter_loc_nil _ (optionalField_loc "items_in_stock" payload parsePositiveInt) (by decide)]
  simp

theorem expirationDateErrors_of_num (now t : ℚ) (rfcParse : String → Option ℚ)
    (payload : List (String × JVal))
    (h : lookupKey payload "expiration_date" = some (JVal.jNum t)) :
    expirationDateErrors now rfcParse payload =
      if t - now < MINIMAL_EXPIRATION then
        [⟨"expiration_date", "cant set expiration in less then MINIMAL_EXPIRATION days"⟩]
      else [] := by
  unfold expirationDateErrors
  simp only [h, parse_rfc_1123_datetime, datetimeTypeCheck, validate_expiration_date]
  split_ifs with hc <;> simp

/-- C5: on the create path and on the update path alike, a supplied
`expiration_date` is accepted exactly when it is at least
`MINIMAL_EXPIRATION` (30 days minus 5 seconds) ahead of the
validation-time clock; a violation contributes exactly one field error,
attributed to `expiration_date` (the last two conjuncts say the whole
error list of either schema, restricted to that field, is exactly this
check's output); an omitted `expiration_date` is never subject to the
rule. -/
theorem claim_C5_expiration_rule (now t : ℚ) (rfcParse : String → Option ℚ)
    (payload : List (String × JVal)) :
    ((lookupKey payload "expiration_date" = some (JVal.jNum t)) →
      (expirationDateErrors now rfcParse payload = [] ↔ MINIMAL_EXPIRATION ≤ t - now) ∧
      (t - now < MINIMAL_EXPIRATION →
        expirationDateErrors now rfcParse payload =
          [⟨"expiration_date",
            "cant set expiration in less then MINIMAL_EXPIRATION days"⟩])) ∧
    (lookupKey payload "expiration_date" = none →
      expirationDateErrors now rfcParse payload = []) ∧
    ((createErrors now rfcParse payload).filter (fun e => e.loc = "expiration_date")
      = expirationDateErrors now rfcParse payload) ∧
    ((updateErrors now rfcParse payload).filter (fun e => e.loc = "expiration_date")
      = expirationDateErrors now rfcParse payload) := by
  refine ⟨?_, ?_, createErrors_filter_expiration now rfcParse payload,
    updateErrors_filter_expiration now rfcParse payload⟩
  · intro h
    rw [expirationDateErrors_of_num now t rfcParse payload h]
    constructor
    · split_ifs with hc
      · exact iff_of_false (by simp) (not_le.mpr hc)
      · exact iff_of_true rfl (not_lt.mp hc)
    · intro hlt
      rw [if_pos hlt]
  · intro h
    unfold expirationDateErrors
    simp only [h]

/-- C5 witness: an expiration date equal to "now" is rejected with the
single `expiration_date` error; a payload without the field is not
checked. -/
theorem witness_C5_expiration_rule :
    expirationDateErrors 0 (fun _ => none) [("expiration_date", JVal.jNum 0)]
      = [⟨"expiration_date",
          "cant set expiration in less then MINIMAL_EXPIRATION days"⟩] ∧
    expirationDateErrors 0 (fun _ => none) [("name", JVal.jStr "a")] = [] :=
  ⟨((claim_C5_expiration_rule 0 0 (fun _ => none)
        [("expiration_date", JVal.jNum 0)]).1 rfl).2
      (by norm_num [MINIMAL_EXPIRATION]),
    (claim_C5_expiration_rule 0 0 (fun _ => none)
        [("name", JVal.jStr "a")]).2.1 rfl⟩

theorem requiredField_eq {α : Type} (k : String) (payload : List (String × JVal))
    (f : JVal → Except String α) (v : JVal) (h : lookupKey payload k = some v) :
    requiredField k payload f =
      match f v with
      | .error m => [⟨k, m⟩]
      | .ok _ => [] := by
  unfold requiredField
  simp only [h]

theorem optionalField_absent {α : Type} (k : String) (payload : List (String × JVal))
    (f : JVal → Except String α) (h : lookupKey payload k = none) :
    optionalField k payload f = [] := by
  unfold optionalField
  simp only [h]

theorem receiptDateErrors_absent (rfcParse : String → Option ℚ)
    (payload : List (String × JVal)) (h : lookupKey payload "receipt_date" = none) :
    receiptDateErrors rfcParse payload = [] := by
  unfold receiptDateErrors
  simp only [h]

theorem expirationDateErrors_absent (now : ℚ) (rfcParse : String → Option ℚ)
    (payload : List (String × JVal)) (h : lookupKey payload "expiration_date" = none) :
    expirationDateErrors now rfcParse payload = [] := by
  unfold expirationDateErrors
  simp only [h]

theorem parseIntList_map (l : List ℤ) :
    parseIntList (l.map (fun (i : ℤ) => JVal.jNum (i : ℚ))) = .ok l := by
  induction l with
  | nil => rfl
  | cons x xs ih =>
    simp [parseIntList, parseInt, Rat.den_intCast, Rat.num_intCast, ih]

theorem createErrors_createPayload (nm : String) (r : ℚ) (b : ℤ)
    (cats : List ℤ) (st : ℤ) (now : ℚ) (rfcParse : String → Option ℚ) :
    createErrors now rfcParse (createPayload nm r b cats st) =
      (if nm.length ≤ 50 then []
        else [⟨"name", "ensure this value has at most 50 characters"⟩]) ++
      (if r < 0 then [⟨"rating", "ensure this value is greater than or equal to 0"⟩]
        else if 10 < r then
          [⟨"rating", "ensure this value is less than or equal to 10"⟩]
        else []) ++
      (if cats.dedup.length < 1 then
          [⟨"categories", "ensure this value has at least 1 items"⟩]
        else if 5 < cats.dedup.length then
          [⟨"categories", "ensure this value has at most 5 items"⟩]
        else []) ++
      (if st ≤ 0 then [⟨"items_in_stock", "ensure this value is greater than 0"⟩]
        else []) := by
  unfold createErrors
  rw [requiredField_eq "name" (createPayload nm r b cats st) parseName (.jStr nm) rfl,
    requiredField_eq "rating" (createPayload nm r b cats st) parseRating (.jNum r) rfl,
    requiredField_eq "brand" (createPayload nm r b cats st) parseInt (.jNum (b : ℚ)) rfl,
    requiredField_eq "categories" (createPayload nm r b cats st) parseCategories
      (.jList (cats.map (fun (i : ℤ) => JVal.jNum (i : ℚ)))) rfl,
    requiredField_eq "items_in_stock" (createPayload nm r b cats st) parsePositiveInt
      (.jNum (st : ℚ)) rfl,
    optionalField_absent "featured" (createPayload nm r b cats st) parseBool rfl,
    receiptDateErrors_absent rfcParse (createPayload nm r b cats st) rfl,
    expirationDateErrors_absent now rfcParse (createPayload nm r b cats st) rfl]
  simp only [parseName, parseRating, parseInt, parsePositiveInt, parseCategories,
    parseIntList_map, Rat.den_intCast, Rat.num_intCast]
  split_ifs <;> simp_all <;> rw [if_neg (by omega)]

/-- C7: create-payload validation checks all the per-field constraints in
one pass and reports one error entry per violated constraint in field
declaration order, never stopping at the first: the whole error list is
exactly the concatenation of the four per-constraint checks, its length
is exactly the number of violated constraints, and a payload whose only
violation is a category set of size 0 or 6 gets exactly one error (on
`categories`). -/
theorem claim_C7_all_constraints_one_pass (nm : String) (r : ℚ) (b : ℤ)
    (cats : List ℤ) (st : ℤ) (now : ℚ) (rfcParse : String → Option ℚ) :
    (createErrors now rfcParse (createPayload nm r b cats st) =
      (if nm.length ≤ 50 then []
        else [⟨"name", "ensure this value has at most 50 characters"⟩]) ++
      (if r < 0 then [⟨"rating", "ensure this value is greater than or equal to 0"⟩]
        else if 10 < r then
          [⟨"rating", "ensure this value is less than or equal to 10"⟩]
        else []) ++
      (if cats.dedup.length < 1 then
          [⟨"categories", "ensure this value has at least 1 items"⟩]
        else if 5 < cats.dedup.length then
          [⟨"categories", "ensure this value has at most 5 items"⟩]
        else []) ++
      (if st ≤ 0 then [⟨"items_in_stock", "ensure this value is greater than 0"⟩]
        else [])) ∧
    (createErrors now rfcParse (createPayload nm r b cats st)).length =
      ((if nm.length ≤ 50 then 0 else 1) + (if r < 0 ∨ 10 < r then 1 else 0) +
        (if cats.dedup.length < 1 ∨ 5 < cats.dedup.length then 1 else 0) +
        (if st ≤ 0 then 1 else 0)) ∧
    (nm.length ≤ 50 → 0 ≤ r → r ≤ 10 → 1 ≤ st →
      (cats.dedup.length = 0 ∨ cats.dedup.length = 6) →
      ∃ m, createErrors now rfcParse (createPayload nm r b cats st)
        = [⟨"categories", m⟩]) := by
  refine ⟨createErrors_createPayload nm r b cats st now rfcParse, ?_, ?_⟩
  · rw [createErrors_createPayload]
    split_ifs <;> simp_all <;>
      first
        | omega
        | (rcases ‹_ ∨ _› with hx | hx <;> linarith)
  · intro h50 h0 h10 hst hbound
    rw [createErrors_createPayload, if_pos h50, if_neg (not_lt.mpr h0),
      if_neg (not_lt.mpr h10), if_neg (by omega : ¬ st ≤ 0)]
    rcases hbound with h6 | h6
    · refine ⟨"ensure this value has at least 1 items", ?_⟩
      rw [if_pos (by omega)]
      simp
    · refine ⟨"ensure this value has at most 5 items", ?_⟩
      rw [if_neg (by omega), if_pos (by omega)]
      simp

/-- C7 witness: an otherwise-valid payload with 0 categories gets exactly
one error, with 6 distinct categories exactly one error, and with three
independent violations (name of 51 characters, rating 11, stock -1)
exactly three errors. -/
theorem witness_C7_all_constraints :
    (∃ m, createErrors 0 (fun _ => none) (createPayload "test" 5 1 [] 1)
        = [⟨"categories", m⟩]) ∧
    (∃ m, createErrors 0 (fun _ => none)
        (createPayload "test" 5 1 [1, 2, 3, 4, 5, 6] 1) = [⟨"categories", m⟩]) ∧
    (createErrors 0 (fun _ => none)
        (createPayload (String.mk (List.replicate 51 'a')) 11 1 [1] (-1))).length = 3 := by
  refine ⟨(claim_C7_all_constraints_one_pass "test" 5 1 [] 1 0 (fun _ => none)).2.2
      (by decide) (by norm_num) (by norm_num) (by decide) (by decide),
    (claim_C7_all_constraints_one_pass "test" 5 1 [1, 2, 3, 4, 5, 6] 1 0
        (fun _ => none)).2.2
      (by decide) (by norm_num) (by norm_num) (by decide) (by decide), ?_⟩
  rw [(claim_C7_all_constraints_one_pass (String.mk (List.replicate 51 'a')) 11 1 [1]
      (-1) 0 (fun _ => none)).2.1]
  rw [if_neg (by decide), if_pos (by decide), if_neg (by decide), if_pos (by decide)]

/-- C8: the RFC-1123 pre-parsing step maps a string that fails to parse
through unchanged, and it is the subsequent datetime type check that
rejects it with a single format error attributed to the date field
(shown for both date fields); a string that does parse is replaced by
the parsed datetime value, which the type check then accepts. -/
theorem claim_C8_rfc1123_passthrough (rfcParse : String → Option ℚ) (s : String)
    (now : ℚ) (payload : List (String × JVal)) :
    (rfcParse s = none →
      parse_rfc_1123_datetime rfcParse (JVal.jStr s) = JVal.jStr s ∧
      (lookupKey payload "receipt_date" = some (JVal.jStr s) →
        receiptDateErrors rfcParse payload
          = [⟨"receipt_date", "invalid datetime format"⟩]) ∧
      (lookupKey payload "expiration_date" = some (JVal.jStr s) →
        expirationDateErrors now rfcParse payload
          = [⟨"expiration_date", "invalid datetime format"⟩])) ∧
    (∀ t, rfcParse s = some t →
      parse_rfc_1123_datetime rfcParse (JVal.jStr s) = JVal.jDate t ∧
      datetimeTypeCheck (JVal.jDate t) = .ok (some t)) := by
  constructor
  · intro hn
    have hpre : parse_rfc_1123_datetime rfcParse (JVal.jStr s) = JVal.jStr s := by
      unfold parse_rfc_1123_datetime
      simp only [hn]
    refine ⟨hpre, ?_, ?_⟩
    · intro hl
      unfold receiptDateErrors
      simp only [hl, hpre, datetimeTypeCheck]
    · intro hl
      unfold expirationDateErrors
      simp only [hl, hpre, datetimeTypeCheck]
  · intro t ht
    have hpre : parse_rfc_1123_datetime rfcParse (JVal.jStr s) = JVal.jDate t := by
      unfold parse_rfc_1123_datetime
      simp only [ht]
    exact ⟨hpre, rfl⟩

/-- C8 witness: with a parser that fails, the string is passed through
and the field gets the single format error; with a parser that returns a
datetime, the value becomes that datetime. -/
theorem witness_C8_rfc1123 :
    parse_rfc_1123_datetime (fun _ => none) (JVal.jStr "bogus") = JVal.jStr "bogus" ∧
    receiptDateErrors (fun _ => none) [("receipt_date", JVal.jStr "bogus")]
      = [⟨"receipt_date", "invalid datetime format"⟩] ∧
    parse_rfc_1123_datetime (fun _ => some 42) (JVal.jStr "x") = JVal.jDate 42 := by
  have h1 := (claim_C8_rfc1123_passthrough (fun _ => none) "bogus" 0
      [("receipt_date", JVal.jStr "bogus")]).1 rfl
  exact ⟨h1.1, h1.2.1 rfl,
    ((claim_C8_rfc1123_passthrough (fun _ => some 42) "x" 0 []).2 42 rfl).1⟩
